import Mathlib

/-!
Shallow embedding of the route-configuration and route-table query/rendering
subsystem found in `zebra/zebra_vty.c` (a RIB manager front end), together
with theorems checking the natural-language specification against it.

Machine integers are modelled as `Nat`; IPv4/IPv6 addresses are the
byte-string value read as a big-endian natural number.  C strings are
modelled as `List Char`.  External library collaborators (text parsers such
as `str2prefix`, `inet_aton`, `inet_pton`, `mpls_str2label`, VRF lookup)
are abstracted by supplying their outcome as part of the input, since the
claims under study concern only how this subsystem combines those outcomes.
-/

namespace ZebraVty

deriving instance DecidableEq for Except

/-- Address family of a prefix (`AF_INET` / `AF_INET6`). -/
inductive Family
  | inet
  | inet6
  deriving DecidableEq, Repr

/-- AFI selector passed to `zebra_static_route` (`AFI_IP` / `AFI_IP6`). -/
inductive Afi
  | ip
  | ip6
  deriving DecidableEq, Repr

/-- Bit width of an address of the given family. -/
def Family.width : Family → Nat
  | .inet => 32
  | .inet6 => 128

/-- `struct prefix`: family, network address (big-endian value) and length. -/
structure Pfx where
  family : Family
  addr : Nat
  len : Nat
  deriving DecidableEq, Repr

/-- Zero the bits of `addr` beyond the first `len` of `w` bits
(the core of `apply_mask`). -/
def maskAddr (w len addr : Nat) : Nat :=
  (addr >>> (w - len)) <<< (w - len)

/-- `apply_mask`: mask the stored address down to the prefix length. -/
def applyMask (p : Pfx) : Pfx :=
  { p with addr := maskAddr p.family.width p.len p.addr }

/-- `prefix_match p q`: `p` covers `q`, i.e. same family, `p` no longer
than `q`, and the first `p.len` bits agree. -/
def prefixCovers (p q : Pfx) : Bool :=
  p.family == q.family && p.len ≤ q.len
    && maskAddr p.family.width p.len q.addr == maskAddr p.family.width p.len p.addr

/-- One nexthop of a route entry; only the fields this subsystem reads. -/
structure Nexthop where
  /-- `NEXTHOP_FLAG_FIB`: nexthop is installed in the forwarding table. -/
  flagFib : Bool
  /-- `NEXTHOP_FLAG_ACTIVE`. -/
  flagActive : Bool
  deriving DecidableEq, Repr

/-- `struct route_entry` (read-only here): the fields consulted by the
filter predicate and the summary aggregators. -/
structure RouteEntry where
  /-- Owning protocol code (`re->type`), `0 ≤ rtype < ZEBRA_ROUTE_MAX`. -/
  rtype : Nat
  /-- `re->instance` (OSPF instance id). -/
  instance_ : Nat
  /-- `re->tag`. -/
  tag : Nat
  /-- `ZEBRA_FLAG_SELECTED` in `re->flags`. -/
  flagSelected : Bool
  /-- `ZEBRA_FLAG_IBGP` in `re->flags`. -/
  flagIbgp : Bool
  /-- `ROUTE_ENTRY_SELECTED_FIB` in `re->status`. -/
  selectedFib : Bool
  /-- Ordered nexthop list (`re->nexthop` chain). -/
  nexthops : List Nexthop
  deriving DecidableEq, Repr

/-- A route node: one prefix of the table together with the route entries
hanging off it (`struct route_node` with its `RNODE_FOREACH_RE` chain). -/
structure RNode where
  p : Pfx
  entries : List RouteEntry
  deriving DecidableEq, Repr

/-- A route table, in traversal order of `route_top`/`route_next`. -/
abbrev RouteTable := List RNode

/-- All route entries of a table in walk order. -/
def tableEntries (t : RouteTable) : List RouteEntry :=
  (t.map RNode.entries).flatten

/-- Protocol code of BGP (`ZEBRA_ROUTE_BGP` from the route-type table). -/
def ZEBRA_ROUTE_BGP : Nat := 9

/-- Protocol code of OSPF (`ZEBRA_ROUTE_OSPF`). -/
def ZEBRA_ROUTE_OSPF : Nat := 6

/-- Protocol code of static routes (`ZEBRA_ROUTE_STATIC`). -/
def ZEBRA_ROUTE_STATIC : Nat := 3

/-! ## Summary aggregators (`vty_show_ip_route_summary`,
`vty_show_ip_route_summary_prefix`)

The C code keeps two arrays `rib_cnt`/`fib_cnt` indexed by protocol type,
with two extra cells: index `ZEBRA_ROUTE_MAX` for iBGP and
`ZEBRA_ROUTE_MAX + 1` for the totals.  Since no entry's type can equal
those reserved indices, we model the arrays as a per-protocol function
plus two named cells. -/

/-- The `rib_cnt`/`fib_cnt` counter arrays of one summary pass. -/
structure SummaryCounts where
  ribProto : Nat → Nat
  ribIbgp : Nat
  ribTotal : Nat
  fibProto : Nat → Nat
  fibIbgp : Nat
  fibTotal : Nat

/-- All-zero counters (the `memset` initialisation). -/
def SummaryCounts.zero : SummaryCounts :=
  ⟨fun _ => 0, 0, 0, fun _ => 0, 0, 0⟩

/-- `cnt[i]++` on a protocol-indexed array. -/
def bumpAt (f : Nat → Nat) (i : Nat) : Nat → Nat :=
  fun j => if j = i then f j + 1 else f j

/-- Loop body of `vty_show_ip_route_summary` for one route entry
(lines 1370–1386). -/
def routeSummaryStep (c : SummaryCounts) (e : RouteEntry) : SummaryCounts :=
  let isIbgp := e.rtype = ZEBRA_ROUTE_BGP ∧ e.flagIbgp
  let c := { c with ribTotal := c.ribTotal + 1 }
  let c :=
    if isIbgp then { c with ribIbgp := c.ribIbgp + 1 }
    else { c with ribProto := bumpAt c.ribProto e.rtype }
  if e.flagSelected then
    let c := { c with fibTotal := c.fibTotal + 1 }
    if isIbgp then { c with fibIbgp := c.fibIbgp + 1 }
    else { c with fibProto := bumpAt c.fibProto e.rtype }
  else c

/-- Counter state after the per-route summary walk
(`vty_show_ip_route_summary`). -/
def routeSummary (t : RouteTable) : SummaryCounts :=
  (tableEntries t).foldl routeSummaryStep SummaryCounts.zero

/-- Body of the ECMP-deduplicating nexthop loop of
`vty_show_ip_route_summary_prefix` (lines 1447–1461), for one nexthop. -/
def ecmpBump (c : SummaryCounts) (e : RouteEntry) (nh : Nexthop) : SummaryCounts :=
  let c := { c with ribTotal := c.ribTotal + 1 }
  let c := { c with ribProto := bumpAt c.ribProto e.rtype }
  let c :=
    if nh.flagFib then
      { c with fibTotal := c.fibTotal + 1, fibProto := bumpAt c.fibProto e.rtype }
    else c
  if e.rtype = ZEBRA_ROUTE_BGP ∧ e.flagIbgp then
    let c := { c with ribIbgp := c.ribIbgp + 1 }
    if nh.flagFib then { c with fibIbgp := c.fibIbgp + 1 } else c
  else c

/-- The literal `for (nexthop = re->nexthop; (!cnt && nexthop); ...)` loop:
`cnt` starts at 0 and the body sets it to 1, so the guard `!cnt` stops the
loop after the first nexthop. -/
def ecmpLoop (e : RouteEntry) : Nat → List Nexthop → SummaryCounts → SummaryCounts
  | _, [], c => c
  | cnt, nh :: rest, c =>
    if cnt = 0 then ecmpLoop e (cnt + 1) rest (ecmpBump c e nh) else c

/-- Loop body of `vty_show_ip_route_summary_prefix` for one route entry. -/
def prefixSummaryStep (c : SummaryCounts) (e : RouteEntry) : SummaryCounts :=
  ecmpLoop e 0 e.nexthops c

/-- Counter state after the per-prefix (ECMP-deduplicated) summary walk
(`vty_show_ip_route_summary_prefix`). -/
def prefixSummary (t : RouteTable) : SummaryCounts :=
  (tableEntries t).foldl prefixSummaryStep SummaryCounts.zero

/-- The eBGP figure printed by the per-prefix summary: the BGP bucket minus
the iBGP bucket (lines 1472–1476). -/
def printedEbgpRibPrefix (t : RouteTable) : Nat :=
  (prefixSummary t).ribProto ZEBRA_ROUTE_BGP - (prefixSummary t).ribIbgp

/-- The eBGP FIB figure printed by the per-prefix summary. -/
def printedEbgpFibPrefix (t : RouteTable) : Nat :=
  (prefixSummary t).fibProto ZEBRA_ROUTE_BGP - (prefixSummary t).fibIbgp

/-! ## Static Route Normalizer (`zebra_static_route`, lines 65–245) -/

/-- The distinct validation failures of `zebra_static_route`, one per
`vty_out`+`CMD_WARNING_CONFIG_FAILED` early return.  The destination and
mask failures print the same "Malformed address" diagnostic and share a
constructor. -/
inductive RouteErr
  | malformedAddress
  | malformedSourceAddress
  | vrfNotDefined
  | mplsDisabled
  | malformedLabel
  | reservedLabel
  | tooManyLabels
  | flagWithNull0
  | malformedFlag
  | malformedNexthopAddress
  deriving DecidableEq, Repr

/-- Outcome of `mpls_str2label` on a supplied label string:
`ok` labels, or the error codes −1/−2/−3. -/
inductive LabelParse
  | ok (labels : List Nat)
  | malformed
  | reserved
  | tooMany
  deriving DecidableEq, Repr

/-- The VRF resolved by `zebra_vrf_lookup_by_name`: its id and its
interface name→ifindex table (`if_lookup_by_name`). -/
structure Zvrf where
  vrfId : Nat
  ifTable : List (List Char × Nat)
  deriving DecidableEq, Repr

/-- `if_lookup_by_name` within a VRF. -/
def ifLookup (z : Zvrf) (n : List Char) : Option Nat :=
  (z.ifTable.find? (fun q => q.1 = n)).map Prod.snd

/-- ASCII lower-casing of one character (`tolower`). -/
def asciiLower (c : Char) : Char :=
  if 'A' ≤ c ∧ c ≤ 'Z' then Char.ofNat (c.toNat + 32) else c

/-- Case-insensitive test that `n` is a prefix of `s`
(`strncasecmp(n, s, strlen(n)) == 0` for NUL-free strings). -/
def lowerPrefixOf : List Char → List Char → Bool
  | [], _ => true
  | _ :: _, [] => false
  | c :: cs, d :: ds => asciiLower c = asciiLower d && lowerPrefixOf cs ds

/-- The `strncasecmp(ifname, "Null0", strlen(ifname)) == 0` test of
line 174: the supplied name is compared only over its own length. -/
def null0Prefix (n : List Char) : Bool :=
  lowerPrefixOf n ['N', 'u', 'l', 'l', '0']

/-- `flag_str[0]` classification (lines 186–198): `some true` for
'r'/'R' (reject), `some false` for 'b'/'B' (blackhole), `none` for any
other leading character (including the empty string's terminator). -/
def flagKind (f : List Char) : Option Bool :=
  match f with
  | [] => none
  | c :: _ =>
    if c = 'r' ∨ c = 'R' then some true
    else if c = 'b' ∨ c = 'B' then some false
    else none

/-- The static nexthop type selected by lines 221–235. -/
inductive StaticType
  | blackhole
  | ipv4Gateway
  | ipv6Gateway
  | ifindex
  | ipv4GatewayIfindex
  | ipv6GatewayIfindex
  deriving DecidableEq, Repr

/-- Interface index attached to the request: absent (`ifindex = 0`),
the `IFINDEX_DELETED` deferred-resolution sentinel, or a real index. -/
inductive IfIdx
  | unset
  | deleted
  | idx (n : Nat)
  deriving DecidableEq, Repr

/-- Result of the nexthop-classification region of `zebra_static_route`
(lines 172–235): the static type, the accumulated route flags, the
surviving gateway and the surviving interface name. -/
structure ClassOut where
  stype : StaticType
  flagBlackhole : Bool
  flagReject : Bool
  gate : Option Nat
  ifname : Option (List Char)
  deriving DecidableEq, Repr

/-- Nexthop classification exactly as coded in lines 172–235:
the Null0 check (which clears the interface name and sets the blackhole
flag, rejecting a simultaneous flag token), then the flag-token switch,
then the gateway parse (`inet_pton`, abstracted into `gateParse`:
`some none` = present but unparsable), then the type selection driven by
gateway-text presence and the surviving interface name. -/
def classifyNexthop (afi : Afi) (gateParse : Option (Option Nat))
    (ifname : Option (List Char)) (flagStr : Option (List Char)) :
    Except RouteErr ClassOut :=
  let isNull0 : Bool := match ifname with
    | some n => null0Prefix n
    | none => false
  if isNull0 ∧ flagStr.isSome then .error .flagWithNull0
  else
    let bh0 : Bool := isNull0
    let ifname1 : Option (List Char) := if isNull0 then none else ifname
    let step2 : Except RouteErr (Bool × Bool) :=
      match flagStr with
      | none => .ok (bh0, false)
      | some f =>
        match flagKind f with
        | some true => .ok (bh0, true)
        | some false => .ok (true, false)
        | none => .error .malformedFlag
    match step2 with
    | .error e => .error e
    | .ok (bh, rej) =>
      match gateParse with
      | some none => .error .malformedNexthopAddress
      | _ =>
        let gate : Option Nat := match gateParse with
          | some (some g) => some g
          | _ => none
        let stype : StaticType :=
          if gateParse.isNone ∧ ifname1.isNone then .blackhole
          else if gateParse.isSome ∧ ifname1.isSome then
            match afi with
            | .ip => .ipv4GatewayIfindex
            | .ip6 => .ipv6GatewayIfindex
          else if ifname1.isSome then .ifindex
          else
            match afi with
            | .ip => .ipv4Gateway
            | .ip6 => .ipv6Gateway
        .ok ⟨stype, bh, rej, gate, ifname1⟩

/-- Default administrative distance (`ZEBRA_STATIC_DISTANCE_DEFAULT`). -/
def ZEBRA_STATIC_DISTANCE_DEFAULT : Nat := 1

/-- Inputs of `zebra_static_route`, with each external parser's outcome
supplied in place of the raw text: `destParse` is the `str2prefix` result
for the mandatory destination; `maskParse` is `some r` when a mask text
is present, `r = none` meaning `inet_aton` failed and `r = some len` the
recomputed `ip_masklen`; `srcParse` likewise for the IPv6 source prefix;
`gateParse` for `inet_pton` on the gateway; `vrf` is the
`zebra_vrf_lookup_by_name` result; `labelParse` the `mpls_str2label`
outcome when a label text is present; `tagStr`/`distanceStr` the parsed
numeric arguments when present. -/
structure Args where
  afi : Afi
  negate : Bool
  destParse : Option Pfx
  maskParse : Option (Option Nat)
  srcParse : Option (Option Pfx)
  gateParse : Option (Option Nat)
  ifname : Option (List Char)
  flagStr : Option (List Char)
  tagStr : Option Nat
  distanceStr : Option Nat
  vrf : Option Zvrf
  labelParse : Option LabelParse
  mplsEnabled : Bool
  deriving Repr

/-- The add/withdraw request issued to the RIB collaborator
(`static_add_route` / `static_delete_route` arguments). -/
structure StaticReq where
  negate : Bool
  stype : StaticType
  p : Pfx
  srcP : Option Pfx
  gate : Option Nat
  ifindex : IfIdx
  ifname : Option (List Char)
  flagBlackhole : Bool
  flagReject : Bool
  tag : Nat
  distance : Nat
  labels : List Nat
  vrfId : Nat
  deriving DecidableEq, Repr

/-- Interface-index resolution of lines 210–219 for the surviving
interface name of a classification: absent name → index 0 (`unset`),
unresolved name → the `IFINDEX_DELETED` deferred-resolution sentinel,
resolved name → its index. -/
def ifidxOf (zvrf : Zvrf) (c : ClassOut) : IfIdx :=
  match c.ifname with
  | none => .unset
  | some n =>
    match ifLookup zvrf n with
    | none => .deleted
    | some ix => .idx ix

/-- The classification a successful run produces (junk default on the
unreachable error side). -/
def classOutOf (afi : Afi) (gateParse : Option (Option Nat))
    (ifname flagStr : Option (List Char)) : ClassOut :=
  match classifyNexthop afi gateParse ifname flagStr with
  | .ok c => c
  | .error _ => ⟨.blackhole, false, false, none, none⟩

/-- The tail of `zebra_static_route` from the Null0 check onwards:
run the nexthop classification, resolve the surviving interface name in
the VRF's interface table, and hand the classification and index to the
request builder. -/
def classifyStage (afi : Afi) (gateParse : Option (Option Nat))
    (ifname flagStr : Option (List Char)) (zvrf : Zvrf)
    (build : ClassOut → IfIdx → StaticReq) : Except RouteErr StaticReq :=
  match classifyNexthop afi gateParse ifname flagStr with
  | .error e => .error e
  | .ok c => .ok (build c (ifidxOf zvrf c))

/-- `zebra_static_route` (lines 65–245): the validation cascade in source
order, ending either in a distinct config-failure or in exactly one
add/withdraw request to the RIB. -/
def zebraStaticRoute (a : Args) : Except RouteErr StaticReq :=
  match a.destParse with
  | none => .error .malformedAddress
  | some p0 =>
    let step2 : Except RouteErr (Pfx × Option Pfx) :=
      match a.afi with
      | .ip =>
        match a.maskParse with
        | none => .ok (p0, none)
        | some none => .error .malformedAddress
        | some (some len) => .ok ({ p0 with len := len }, none)
      | .ip6 =>
        match a.srcParse with
        | none => .ok (p0, none)
        | some none => .error .malformedSourceAddress
        | some (some s) =>
          if s.family ≠ .inet6 then .error .malformedSourceAddress
          else .ok (p0, some s)
    match step2 with
    | .error e => .error e
    | .ok (p1, srcP) =>
      let p := applyMask p1
      let distance := a.distanceStr.getD ZEBRA_STATIC_DISTANCE_DEFAULT
      let tag := a.tagStr.getD 0
      match a.vrf with
      | none => .error .vrfNotDefined
      | some zvrf =>
        let labelStep : Except RouteErr (List Nat) :=
          match a.labelParse with
          | none => .ok []
          | some lp =>
            if ¬ a.mplsEnabled then .error .mplsDisabled
            else
              match lp with
              | .ok ls => .ok ls
              | .malformed => .error .malformedLabel
              | .reserved => .error .reservedLabel
              | .tooMany => .error .tooManyLabels
        match labelStep with
        | .error e => .error e
        | .ok labels =>
          classifyStage a.afi a.gateParse a.ifname a.flagStr zvrf fun c ifindex =>
            { negate := a.negate, stype := c.stype, p := p, srcP := srcP,
              gate := c.gate, ifindex := ifindex, ifname := c.ifname,
              flagBlackhole := c.flagBlackhole, flagReject := c.flagReject,
              tag := tag, distance := distance, labels := labels,
              vrfId := zvrf.vrfId }

/-- The IPv6 source-prefix argument is bad: present but unparsable, or
parsed with a non-IPv6 family (line 109). -/
def srcBad (a : Args) : Bool :=
  match a.srcParse with
  | none => false
  | some none => true
  | some (some s) => s.family ≠ .inet6

/-- The first failing nexthop-classification check, in the order the
specification fixes: flag errors (a flag token with a Null0 interface,
or a bad leading character), then a malformed nexthop address; `none`
when all pass. -/
def classifyFirstFailure (g : Option (Option Nat)) (i f : Option (List Char)) :
    Option RouteErr :=
  let null0Arg : Bool := match i with
    | some n => null0Prefix n
    | none => false
  let flagBad : Bool := match f with
    | some fl => (flagKind fl).isNone
    | none => false
  if null0Arg ∧ f.isSome then some .flagWithNull0
  else if ¬ null0Arg ∧ flagBad then some .malformedFlag
  else if g = some none then some .malformedNexthopAddress
  else none

/-- The first failing validation check in the order the specification
fixes: malformed destination, malformed mask, malformed IPv6 source,
undefined VRF, MPLS disabled, label errors, flag errors (a flag token
with a Null0 interface, or a bad leading character), malformed nexthop
address; `none` when every check passes. -/
def specFirstFailure (a : Args) : Option RouteErr :=
  if a.destParse.isNone then some .malformedAddress
  else if a.afi = .ip ∧ a.maskParse = some none then some .malformedAddress
  else if a.afi = .ip6 ∧ srcBad a then some .malformedSourceAddress
  else if a.vrf.isNone then some .vrfNotDefined
  else if a.labelParse.isSome ∧ ¬ a.mplsEnabled then some .mplsDisabled
  else if a.labelParse = some .malformed then some .malformedLabel
  else if a.labelParse = some .reserved then some .reservedLabel
  else if a.labelParse = some .tooMany then some .tooManyLabels
  else classifyFirstFailure a.gateParse a.ifname a.flagStr

/-- The reported failure of a fallible step, `none` on success. -/
def errOf {α : Type} : Except RouteErr α → Option RouteErr
  | .error e => some e
  | .ok _ => none

/-- The request issued to the RIB by a normalizer run, `none` when the
run failed. -/
def reqOf : Except RouteErr StaticReq → Option StaticReq
  | .error _ => none
  | .ok r => some r

/-! ## RIB filter predicate and route walker (`do_show_ip_route`,
lines 893–1010) -/

/-- `IN_CLASSA(a)`: top bit 0. -/
def inClassA (a : Nat) : Bool := a >>> 31 = 0

/-- `IN_CLASSB(a)`: top two bits `10`. -/
def inClassB (a : Nat) : Bool := a >>> 30 = 2

/-- `IN_CLASSC(a)`: top three bits `110`. -/
def inClassC (a : Nat) : Bool := a >>> 29 = 6

/-- The supernets-only skip chain of lines 952–963, applied to the
node's IPv4 prefix: `true` means the entry is skipped. -/
def supernetsSkip (p : Pfx) : Bool :=
  if inClassC p.addr ∧ 24 ≤ p.len then true
  else if inClassB p.addr ∧ 16 ≤ p.len then true
  else if inClassA p.addr ∧ 8 ≤ p.len then true
  else false

/-- The filter arguments of one `do_show_ip_route` invocation.  A `tag`,
`rtype` or `ospfInstanceId` of 0 means the criterion was not supplied,
exactly as in the C code. -/
structure ShowQuery where
  useFib : Bool
  tag : Nat
  longerPrefix : Option Pfx
  supernetsOnly : Bool
  rtype : Nat
  ospfInstanceId : Nat
  deriving DecidableEq, Repr

/-- The `continue` chain of the walker body (lines 939–971): whether a
route entry under prefix `p` survives every supplied filter and is
rendered. -/
def entryShown (q : ShowQuery) (p : Pfx) (re : RouteEntry) : Bool :=
  let longerFail : Bool := match q.longerPrefix with
    | some lp => ¬ prefixCovers lp p
    | none => false
  if q.useFib ∧ ¬ re.selectedFib then false
  else if q.tag ≠ 0 ∧ re.tag ≠ q.tag then false
  else if longerFail then false
  else if q.supernetsOnly ∧ supernetsSkip p then false
  else if q.rtype ≠ 0 ∧ re.rtype ≠ q.rtype then false
  else if q.ospfInstanceId ≠ 0
          ∧ (re.rtype ≠ ZEBRA_ROUTE_OSPF ∨ re.instance_ ≠ q.ospfInstanceId) then false
  else true

/-- The rendered output of one `do_show_ip_route` walk: every
(prefix, entry) pair that passes the filter, in walk order. -/
def showRoutes (q : ShowQuery) (t : RouteTable) : List (Pfx × RouteEntry) :=
  t.flatMap fun rn => (rn.entries.filter (entryShown q rn.p)).map fun re => (rn.p, re)

/-- The fib-only criterion, in isolation: fib-installed flag set. -/
def critFib (q : ShowQuery) (re : RouteEntry) : Bool :=
  !q.useFib || re.selectedFib

/-- The tag criterion, in isolation: entry tag equals the request. -/
def critTag (q : ShowQuery) (re : RouteEntry) : Bool :=
  q.tag = 0 || re.tag = q.tag

/-- The longer-prefix criterion, in isolation: the reference prefix
covers the entry's prefix. -/
def critLonger (q : ShowQuery) (p : Pfx) : Bool :=
  match q.longerPrefix with
  | some lp => prefixCovers lp p
  | none => true

/-- The supernets-only criterion, in isolation. -/
def critSupernets (q : ShowQuery) (p : Pfx) : Bool :=
  !q.supernetsOnly || !supernetsSkip p

/-- The protocol-type criterion, in isolation. -/
def critType (q : ShowQuery) (re : RouteEntry) : Bool :=
  q.rtype = 0 || re.rtype = q.rtype

/-- The OSPF-instance criterion, in isolation: protocol is OSPF and the
instance id matches. -/
def critInstance (q : ShowQuery) (re : RouteEntry) : Bool :=
  q.ospfInstanceId = 0 || (re.rtype = ZEBRA_ROUTE_OSPF && re.instance_ = q.ospfInstanceId)

/-- Conjunction of all six supplied criteria. -/
def passesAll (q : ShowQuery) (p : Pfx) (re : RouteEntry) : Bool :=
  critFib q re && critTag q re && critLonger q p && critSupernets q p
    && critType q re && critInstance q re

/-- The `show ip route static` query. -/
def staticQuery : ShowQuery :=
  ⟨false, 0, none, false, ZEBRA_ROUTE_STATIC, 0⟩

/-- The `show ip fib static` query (`type=static, fib-only=true`). -/
def staticFibQuery : ShowQuery :=
  ⟨true, 0, none, false, ZEBRA_ROUTE_STATIC, 0⟩

/-! ## Prefix / address detail lookup (`show_ip_route_prefix`,
`show_ip_route_addr`, lines 1264–1350) -/

/-- Outcome of a detail-lookup command: the detail record of one node,
or the "Network not in table" warning. -/
inductive ShowOutcome
  | detail (rn : RNode)
  | warningNotFound
  deriving DecidableEq, Repr

/-- `route_node_match`: the matched node of maximal prefix length, i.e.
the longest node prefix covering the query.  The tree walk of the C
library is modelled over the node list. -/
def bestMatch (q : Pfx) : RouteTable → Option RNode
  | [] => none
  | rn :: rest =>
    match bestMatch q rest with
    | none => if prefixCovers rn.p q then some rn else none
    | some m =>
      if prefixCovers rn.p q ∧ m.p.len < rn.p.len then some rn else some m

/-- `show ip route A.B.C.D/M` (lines 1308–1350): longest match, then the
exactness test `rn->p.prefixlen != p.prefixlen` deciding between the
detail record and the warning. -/
def showIpRoutePrefix (t : RouteTable) (q : Pfx) : ShowOutcome :=
  match bestMatch q t with
  | none => .warningNotFound
  | some rn => if rn.p.len = q.len then .detail rn else .warningNotFound

/-- The query prefix built by `str2prefix_ipv4` from a bare address:
full host length. -/
def hostPfx (a : Nat) : Pfx := ⟨.inet, a, 32⟩

/-- `show ip route A.B.C.D` (lines 1264–1306): longest-prefix match for
the host route of the address. -/
def showIpRouteAddr (t : RouteTable) (a : Nat) : ShowOutcome :=
  match bestMatch (hostPfx a) t with
  | none => .warningNotFound
  | some rn => .detail rn

/-- Well-formed route table: node prefixes are stored masked, and no two
nodes share a prefix (the table is keyed by prefix). -/
def wfTable (t : RouteTable) : Prop :=
  (∀ rn ∈ t, applyMask rn.p = rn.p) ∧ t.Pairwise (fun x y => x.p ≠ y.p)

/-! ## Uptime rendering (`vty_show_ip_route`, lines 861–883, and
`vty_show_ip_route_detail`, lines 446–466)

The age is `time(NULL) - re->uptime` handed to `gmtime`, whose
`tm_yday`/`tm_hour`/`tm_min`/`tm_sec` fields feed one of three format
strings chosen by comparing the age against one day and one week. -/

/-- `ONE_DAY_SECOND`. -/
def ONE_DAY_SECOND : Nat := 60 * 60 * 24

/-- `ONE_WEEK_SECOND`. -/
def ONE_WEEK_SECOND : Nat := 60 * 60 * 24 * 7

/-- Days in a calendar year (Gregorian leap rule), as `gmtime` uses. -/
def daysInYear (y : Nat) : Nat :=
  if (y % 4 = 0 ∧ y % 100 ≠ 0) ∨ y % 400 = 0 then 366 else 365

/-- `tm_yday` of `gmtime` for a day count since the epoch, counting from
year `y`: the day's index within its calendar year. -/
def ydayFrom (y days : Nat) : Nat :=
  if _h : days < daysInYear y then days
  else ydayFrom (y + 1) (days - daysInYear y)
termination_by days
decreasing_by
  have hpos : 0 < daysInYear y := by unfold daysInYear; split <;> omega
  omega

/-- The `tm` fields of `gmtime(uptime)` that the renderer reads. -/
structure Tm where
  yday : Nat
  hour : Nat
  min : Nat
  sec : Nat
  deriving DecidableEq, Repr

/-- `gmtime` on an uptime in seconds (epoch 1970). -/
def gmtimeOf (u : Nat) : Tm :=
  ⟨ydayFrom 1970 (u / 86400), u / 3600 % 24, u / 60 % 60, u % 60⟩

/-- The three age formats of the renderer, with the printed fields:
`HH:MM:SS`, `DdHHhMMm`, `WWwDdHHh`. -/
inductive AgeText
  | clock (h m s : Nat)
  | dhm (d h m : Nat)
  | wdh (w d h : Nat)
  deriving DecidableEq, Repr

/-- The format selection and field extraction of lines 873–883: below
one day `tm_hour:tm_min:tm_sec`; below one week
`tm_yday d tm_hour h tm_min m`; otherwise `tm_yday/7 w`,
`tm_yday - (tm_yday/7)*7 d`, `tm_hour h`. -/
def renderAge (u : Nat) : AgeText :=
  let tm := gmtimeOf u
  if u < ONE_DAY_SECOND then .clock tm.hour tm.min tm.sec
  else if u < ONE_WEEK_SECOND then .dhm tm.yday tm.hour tm.min
  else .wdh (tm.yday / 7) (tm.yday - tm.yday / 7 * 7) tm.hour

/-- `%02d` formatting. -/
def pad2 (n : Nat) : String :=
  if n < 10 then "0" ++ toString n else toString n

/-- The printed text of an age, per the three format strings. -/
def ageString : AgeText → String
  | .clock h m s => pad2 h ++ ":" ++ pad2 m ++ ":" ++ pad2 s
  | .dhm d h m => toString d ++ "d" ++ pad2 h ++ "h" ++ pad2 m ++ "m"
  | .wdh w d h => pad2 w ++ "w" ++ toString d ++ "d" ++ pad2 h ++ "h"

/-! ## Specification-side definitions used for comparison -/

/-- Contribution of one route entry to the per-prefix route total, per
the specification: exactly once when the entry has at least one nexthop,
nothing when the nexthop list is empty. -/
def perPrefixRibContrib (e : RouteEntry) : Nat :=
  if e.nexthops.isEmpty then 0 else 1

/-- Contribution of one route entry to the per-prefix fib subtotal, per
the specification: one per fib-flagged nexthop encountered in the
first-nexthop pass, i.e. 1 when the first nexthop is fib-flagged. -/
def perPrefixFibContrib (e : RouteEntry) : Nat :=
  match e.nexthops with
  | [] => 0
  | nh :: _ => if nh.flagFib then 1 else 0

/-- The canonical nexthop-type variants named by the specification's
data model (§3 NexthopSpec). -/
inductive NexthopSpec
  | gatewayOnly (afi : Afi)
  | interfaceOnly
  | gatewayAndInterface (afi : Afi)
  | blackhole
  | reject
  deriving DecidableEq, Repr

/-- Collapse a classification result of the code onto the
specification's variant vocabulary. -/
def toNexthopSpec (c : ClassOut) : NexthopSpec :=
  match c.stype with
  | .blackhole => if c.flagReject then .reject else .blackhole
  | .ipv4Gateway => .gatewayOnly .ip
  | .ipv6Gateway => .gatewayOnly .ip6
  | .ifindex => .interfaceOnly
  | .ipv4GatewayIfindex => .gatewayAndInterface .ip
  | .ipv6GatewayIfindex => .gatewayAndInterface .ip6

/-- The supplied interface name is case-insensitively the full word
"Null0" (the comparison the claim describes). -/
def isExactlyNull0 (n : List Char) : Bool :=
  n.map asciiLower = ['n', 'u', 'l', 'l', '0']

/-- Nexthop classification as the claim words it, first match wins:
(1) interface name case-insensitively "Null0" → Blackhole, flag token
rejected; (2) flag token → Reject/Blackhole by leading character, other
leading characters rejected; (3) gateway and interface →
GatewayAndInterface; (4) interface alone → InterfaceOnly; (5) gateway
alone → GatewayOnly; (6) neither → implicit Blackhole. -/
def claimC4Classify (afi : Afi) (gatePresent : Bool)
    (ifname flagStr : Option (List Char)) : Except RouteErr NexthopSpec :=
  let exactNull0 : Bool := match ifname with
    | some n => isExactlyNull0 n
    | none => false
  if exactNull0 then
    if flagStr.isSome then .error .flagWithNull0 else .ok .blackhole
  else
    match flagStr with
    | some f =>
      match flagKind f with
      | some true => .ok .reject
      | some false => .ok .blackhole
      | none => .error .malformedFlag
    | none =>
      if gatePresent ∧ ifname.isSome then .ok (.gatewayAndInterface afi)
      else if ifname.isSome then .ok .interfaceOnly
      else if gatePresent then .ok (.gatewayOnly afi)
      else .ok .blackhole

/-- The AFI-specific gateway-only static type. -/
def gwOnly : Afi → StaticType
  | .ip => .ipv4Gateway
  | .ip6 => .ipv6Gateway

/-- The AFI-specific gateway-and-interface static type. -/
def gwIfindex : Afi → StaticType
  | .ip => .ipv4GatewayIfindex
  | .ip6 => .ipv6GatewayIfindex

/-- Nexthop classification as a first-match-wins rule table, per the
amended claim: (1) an interface name that is a case-insensitive prefix
of "Null0" rejects a simultaneous flag token, sets the blackhole flag
and clears only the interface, so a parsed gateway still yields the
AFI-specific gateway-only variant (carrying the blackhole flag) and no
gateway yields Blackhole; (2) otherwise a flag token sets the Reject
('r'/'R') or Blackhole ('b'/'B') flag, any other leading character
failing; then a present-but-unparsable gateway fails; finally the
variant follows gateway/interface presence: both → GatewayAndInterface,
interface alone → InterfaceOnly, gateway alone → GatewayOnly, neither →
Blackhole carrying whatever flags accumulated. -/
def amendedClassify (afi : Afi) (gateParse : Option (Option Nat))
    (ifname flagStr : Option (List Char)) : Except RouteErr ClassOut :=
  let n0 : Bool := match ifname with
    | some n => null0Prefix n
    | none => false
  if n0 then
    if flagStr.isSome then .error .flagWithNull0
    else
      match gateParse with
      | none => .ok ⟨.blackhole, true, false, none, none⟩
      | some none => .error .malformedNexthopAddress
      | some (some g) => .ok ⟨gwOnly afi, true, false, some g, none⟩
  else
    let flags : Except RouteErr (Bool × Bool) :=
      match flagStr with
      | none => .ok (false, false)
      | some f =>
        match flagKind f with
        | some true => .ok (false, true)
        | some false => .ok (true, false)
        | none => .error .malformedFlag
    match flags with
    | .error e => .error e
    | .ok (bh, rej) =>
      match gateParse, ifname with
      | some none, _ => .error .malformedNexthopAddress
      | some (some g), some n => .ok ⟨gwIfindex afi, bh, rej, some g, some n⟩
      | some (some g), none => .ok ⟨gwOnly afi, bh, rej, some g, none⟩
      | none, some n => .ok ⟨.ifindex, bh, rej, none, some n⟩
      | none, none => .ok ⟨.blackhole, bh, rej, none, none⟩

/-- The request the success path of `zebra_static_route` builds,
computed directly from the inputs (meaningful when no validation check
fails; junk defaults fill the impossible branches). -/
def buildReq (a : Args) : StaticReq :=
  let p0 := a.destParse.getD ⟨.inet, 0, 0⟩
  let p1 : Pfx :=
    match a.afi, a.maskParse with
    | .ip, some (some len) => { p0 with len := len }
    | _, _ => p0
  let srcP : Option Pfx :=
    match a.afi, a.srcParse with
    | .ip6, some (some s) => some s
    | _, _ => none
  let zvrf := a.vrf.getD ⟨0, []⟩
  let labels : List Nat :=
    match a.labelParse with
    | some (.ok ls) => ls
    | _ => []
  let c : ClassOut := classOutOf a.afi a.gateParse a.ifname a.flagStr
  let ifindex : IfIdx := ifidxOf zvrf c
  { negate := a.negate, stype := c.stype, p := applyMask p1, srcP := srcP,
    gate := c.gate, ifindex := ifindex, ifname := c.ifname,
    flagBlackhole := c.flagBlackhole, flagReject := c.flagReject,
    tag := a.tagStr.getD 0, distance := a.distanceStr.getD ZEBRA_STATIC_DISTANCE_DEFAULT,
    labels := labels, vrfId := zvrf.vrfId }

/-! # Theorems -/

/-! ## Summary aggregator lemmas -/

theorem ecmpLoop_stop (e : RouteEntry) (cnt : Nat) (h : cnt ≠ 0)
    (nhs : List Nexthop) (c : SummaryCounts) : ecmpLoop e cnt nhs c = c := by
  cases nhs <;> simp [ecmpLoop, h]

theorem prefixSummaryStep_eq (c : SummaryCounts) (e : RouteEntry) :
    prefixSummaryStep c e =
      match e.nexthops with
      | [] => c
      | nh :: _ => ecmpBump c e nh := by
  cases h : e.nexthops with
  | nil => simp [prefixSummaryStep, h, ecmpLoop]
  | cons nh rest => simp [prefixSummaryStep, h, ecmpLoop, ecmpLoop_stop]

theorem routeSummaryStep_ribTotal (c : SummaryCounts) (e : RouteEntry) :
    (routeSummaryStep c e).ribTotal = c.ribTotal + 1 := by
  by_cases hib : e.rtype = ZEBRA_ROUTE_BGP ∧ e.flagIbgp = true <;>
    cases hs : e.flagSelected <;>
    simp [routeSummaryStep, hib, hs]

theorem routeSummaryStep_fibTotal (c : SummaryCounts) (e : RouteEntry) :
    (routeSummaryStep c e).fibTotal
      = c.fibTotal + (if e.flagSelected then 1 else 0) := by
  by_cases hib : e.rtype = ZEBRA_ROUTE_BGP ∧ e.flagIbgp = true <;>
    cases hs : e.flagSelected <;>
    simp [routeSummaryStep, hib, hs]

theorem ecmpBump_ribTotal (c : SummaryCounts) (e : RouteEntry) (nh : Nexthop) :
    (ecmpBump c e nh).ribTotal = c.ribTotal + 1 := by
  by_cases hib : e.rtype = ZEBRA_ROUTE_BGP ∧ e.flagIbgp = true <;>
    cases hf : nh.flagFib <;>
    simp [ecmpBump, hib, hf]

theorem ecmpBump_fibTotal (c : SummaryCounts) (e : RouteEntry) (nh : Nexthop) :
    (ecmpBump c e nh).fibTotal = c.fibTotal + (if nh.flagFib then 1 else 0) := by
  by_cases hib : e.rtype = ZEBRA_ROUTE_BGP ∧ e.flagIbgp = true <;>
    cases hf : nh.flagFib <;>
    simp [ecmpBump, hib, hf]

theorem prefixSummaryStep_ribTotal (c : SummaryCounts) (e : RouteEntry) :
    (prefixSummaryStep c e).ribTotal = c.ribTotal + perPrefixRibContrib e := by
  rw [prefixSummaryStep_eq]
  cases h : e.nexthops with
  | nil => simp [perPrefixRibContrib, h]
  | cons nh rest => simp [perPrefixRibContrib, h, ecmpBump_ribTotal]

theorem prefixSummaryStep_fibTotal (c : SummaryCounts) (e : RouteEntry) :
    (prefixSummaryStep c e).fibTotal = c.fibTotal + perPrefixFibContrib e := by
  rw [prefixSummaryStep_eq]
  cases h : e.nexthops with
  | nil => simp [perPrefixFibContrib, h]
  | cons nh rest => simp [perPrefixFibContrib, h, ecmpBump_fibTotal]

theorem foldl_counts (step : SummaryCounts → RouteEntry → SummaryCounts)
    (g : SummaryCounts → Nat) (f : RouteEntry → Nat)
    (h : ∀ c e, g (step c e) = g c + f e) :
    ∀ (l : List RouteEntry) (c : SummaryCounts),
      g (l.foldl step c) = g c + (l.map f).sum := by
  intro l
  induction l with
  | nil => simp
  | cons x xs ih =>
    intro c
    simp only [List.foldl_cons, List.map_cons, List.sum_cons, ih, h]
    omega

theorem routeSummary_ribTotal (t : RouteTable) :
    (routeSummary t).ribTotal = (tableEntries t).length := by
  have := foldl_counts routeSummaryStep SummaryCounts.ribTotal (fun _ => 1)
    routeSummaryStep_ribTotal (tableEntries t) SummaryCounts.zero
  simpa [routeSummary, SummaryCounts.zero] using this

theorem routeSummary_fibTotal (t : RouteTable) :
    (routeSummary t).fibTotal
      = ((tableEntries t).map (fun e => if e.flagSelected then 1 else 0)).sum := by
  have := foldl_counts routeSummaryStep SummaryCounts.fibTotal
    (fun e => if e.flagSelected then 1 else 0)
    routeSummaryStep_fibTotal (tableEntries t) SummaryCounts.zero
  simpa [routeSummary, SummaryCounts.zero] using this

theorem prefixSummary_ribTotal (t : RouteTable) :
    (prefixSummary t).ribTotal = ((tableEntries t).map perPrefixRibContrib).sum := by
  have := foldl_counts prefixSummaryStep SummaryCounts.ribTotal perPrefixRibContrib
    prefixSummaryStep_ribTotal (tableEntries t) SummaryCounts.zero
  simpa [prefixSummary, SummaryCounts.zero] using this

theorem prefixSummary_fibTotal (t : RouteTable) :
    (prefixSummary t).fibTotal = ((tableEntries t).map perPrefixFibContrib).sum := by
  have := foldl_counts prefixSummaryStep SummaryCounts.fibTotal perPrefixFibContrib
    prefixSummaryStep_fibTotal (tableEntries t) SummaryCounts.zero
  simpa [prefixSummary, SummaryCounts.zero] using this

/-- Per-prefix contribution of one entry to the BGP protocol bucket of
the rib counters. -/
def prefContribRibBgp (e : RouteEntry) : Nat :=
  match e.nexthops with
  | [] => 0
  | _ :: _ => if ZEBRA_ROUTE_BGP = e.rtype then 1 else 0

/-- Per-prefix contribution of one entry to the iBGP cell of the rib
counters. -/
def prefContribRibIbgp (e : RouteEntry) : Nat :=
  match e.nexthops with
  | [] => 0
  | _ :: _ => if e.rtype = ZEBRA_ROUTE_BGP ∧ e.flagIbgp then 1 else 0

/-- Per-prefix contribution of one entry to the BGP protocol bucket of
the fib counters. -/
def prefContribFibBgp (e : RouteEntry) : Nat :=
  match e.nexthops with
  | [] => 0
  | nh :: _ => if nh.flagFib ∧ ZEBRA_ROUTE_BGP = e.rtype then 1 else 0

/-- Per-prefix contribution of one entry to the iBGP cell of the fib
counters. -/
def prefContribFibIbgp (e : RouteEntry) : Nat :=
  match e.nexthops with
  | [] => 0
  | nh :: _ => if nh.flagFib ∧ e.rtype = ZEBRA_ROUTE_BGP ∧ e.flagIbgp then 1 else 0

theorem ecmpBump_ribProto (c : SummaryCounts) (e : RouteEntry) (nh : Nexthop)
    (j : Nat) :
    (ecmpBump c e nh).ribProto j
      = c.ribProto j + (if j = e.rtype then 1 else 0) := by
  by_cases hib : e.rtype = ZEBRA_ROUTE_BGP ∧ e.flagIbgp = true <;>
    cases hf : nh.flagFib <;>
    by_cases hj : j = e.rtype <;>
    simp [ecmpBump, bumpAt, hib, hf, hj] <;>
    simp_all

theorem ecmpBump_ribIbgp (c : SummaryCounts) (e : RouteEntry) (nh : Nexthop) :
    (ecmpBump c e nh).ribIbgp
      = c.ribIbgp + (if e.rtype = ZEBRA_ROUTE_BGP ∧ e.flagIbgp then 1 else 0) := by
  by_cases hib : e.rtype = ZEBRA_ROUTE_BGP ∧ e.flagIbgp = true <;>
    cases hf : nh.flagFib <;>
    simp [ecmpBump, hib, hf]

theorem ecmpBump_fibProto (c : SummaryCounts) (e : RouteEntry) (nh : Nexthop)
    (j : Nat) :
    (ecmpBump c e nh).fibProto j
      = c.fibProto j + (if nh.flagFib ∧ j = e.rtype then 1 else 0) := by
  by_cases hib : e.rtype = ZEBRA_ROUTE_BGP ∧ e.flagIbgp = true <;>
    cases hf : nh.flagFib <;>
    by_cases hj : j = e.rtype <;>
    simp [ecmpBump, bumpAt, hib, hf, hj] <;>
    simp_all

theorem ecmpBump_fibIbgp (c : SummaryCounts) (e : RouteEntry) (nh : Nexthop) :
    (ecmpBump c e nh).fibIbgp
      = c.fibIbgp
        + (if nh.flagFib ∧ e.rtype = ZEBRA_ROUTE_BGP ∧ e.flagIbgp then 1 else 0) := by
  by_cases hib : e.rtype = ZEBRA_ROUTE_BGP ∧ e.flagIbgp = true <;>
    cases hf : nh.flagFib <;>
    simp [ecmpBump, hib, hf]

theorem prefixSummaryStep_ribProtoBgp (c : SummaryCounts) (e : RouteEntry) :
    (prefixSummaryStep c e).ribProto ZEBRA_ROUTE_BGP
      = c.ribProto ZEBRA_ROUTE_BGP + prefContribRibBgp e := by
  rw [prefixSummaryStep_eq]
  cases h : e.nexthops with
  | nil => simp [prefContribRibBgp, h]
  | cons nh rest => simp [prefContribRibBgp, h, ecmpBump_ribProto]

theorem prefixSummaryStep_ribIbgp (c : SummaryCounts) (e : RouteEntry) :
    (prefixSummaryStep c e).ribIbgp = c.ribIbgp + prefContribRibIbgp e := by
  rw [prefixSummaryStep_eq]
  cases h : e.nexthops with
  | nil => simp [prefContribRibIbgp, h]
  | cons nh rest => simp [prefContribRibIbgp, h, ecmpBump_ribIbgp]

theorem prefixSummaryStep_fibProtoBgp (c : SummaryCounts) (e : RouteEntry) :
    (prefixSummaryStep c e).fibProto ZEBRA_ROUTE_BGP
      = c.fibProto ZEBRA_ROUTE_BGP + prefContribFibBgp e := by
  rw [prefixSummaryStep_eq]
  cases h : e.nexthops with
  | nil => simp [prefContribFibBgp, h]
  | cons nh rest => simp [prefContribFibBgp, h, ecmpBump_fibProto]

theorem prefixSummaryStep_fibIbgp (c : SummaryCounts) (e : RouteEntry) :
    (prefixSummaryStep c e).fibIbgp = c.fibIbgp + prefContribFibIbgp e := by
  rw [prefixSummaryStep_eq]
  cases h : e.nexthops with
  | nil => simp [prefContribFibIbgp, h]
  | cons nh rest => simp [prefContribFibIbgp, h, ecmpBump_fibIbgp]

theorem prefContribRibIbgp_le (e : RouteEntry) :
    prefContribRibIbgp e ≤ prefContribRibBgp e := by
  cases h : e.nexthops with
  | nil => simp [prefContribRibIbgp, prefContribRibBgp, h]
  | cons nh rest =>
    simp only [prefContribRibIbgp, prefContribRibBgp, h]
    split_ifs <;> simp_all

theorem prefContribFibIbgp_le (e : RouteEntry) :
    prefContribFibIbgp e ≤ prefContribFibBgp e := by
  cases h : e.nexthops with
  | nil => simp [prefContribFibIbgp, prefContribFibBgp, h]
  | cons nh rest =>
    simp only [prefContribFibIbgp, prefContribFibBgp, h]
    split_ifs <;> simp_all

theorem prefixSummary_ribIbgp_le (t : RouteTable) :
    (prefixSummary t).ribIbgp ≤ (prefixSummary t).ribProto ZEBRA_ROUTE_BGP := by
  have h1 := foldl_counts prefixSummaryStep (fun c => c.ribProto ZEBRA_ROUTE_BGP)
    prefContribRibBgp prefixSummaryStep_ribProtoBgp (tableEntries t) SummaryCounts.zero
  have h2 := foldl_counts prefixSummaryStep SummaryCounts.ribIbgp
    prefContribRibIbgp prefixSummaryStep_ribIbgp (tableEntries t) SummaryCounts.zero
  have hle : ((tableEntries t).map prefContribRibIbgp).sum
      ≤ ((tableEntries t).map prefContribRibBgp).sum :=
    List.sum_le_sum fun e _ => prefContribRibIbgp_le e
  simp only [prefixSummary, SummaryCounts.zero] at *
  omega

theorem perPrefixRibContrib_le_one (e : RouteEntry) : perPrefixRibContrib e ≤ 1 := by
  unfold perPrefixRibContrib
  split <;> omega

theorem sum_perPrefixRibContrib_le (l : List RouteEntry) :
    (l.map perPrefixRibContrib).sum ≤ l.length := by
  induction l with
  | nil => simp
  | cons x xs ih =>
    have := perPrefixRibContrib_le_one x
    simp only [List.map_cons, List.sum_cons, List.length_cons]
    omega

theorem sum_perPrefixRibContrib_eq (l : List RouteEntry)
    (h : ∀ e ∈ l, e.nexthops ≠ []) :
    (l.map perPrefixRibContrib).sum = l.length := by
  induction l with
  | nil => simp
  | cons x xs ih =>
    have hx : perPrefixRibContrib x = 1 := by
      have := h x (List.mem_cons_self x xs)
      simp [perPrefixRibContrib, List.isEmpty_iff, this]
    simp only [List.map_cons, List.sum_cons, List.length_cons,
      ih (fun e he => h e (List.mem_cons_of_mem x he)), hx]
    omega

theorem prefixSummary_fibIbgp_le (t : RouteTable) :
    (prefixSummary t).fibIbgp ≤ (prefixSummary t).fibProto ZEBRA_ROUTE_BGP := by
  have h1 := foldl_counts prefixSummaryStep (fun c => c.fibProto ZEBRA_ROUTE_BGP)
    prefContribFibBgp prefixSummaryStep_fibProtoBgp (tableEntries t) SummaryCounts.zero
  have h2 := foldl_counts prefixSummaryStep SummaryCounts.fibIbgp
    prefContribFibIbgp prefixSummaryStep_fibIbgp (tableEntries t) SummaryCounts.zero
  have hle : ((tableEntries t).map prefContribFibIbgp).sum
      ≤ ((tableEntries t).map prefContribFibBgp).sum :=
    List.sum_le_sum fun e _ => prefContribFibIbgp_le e
  simp only [prefixSummary, SummaryCounts.zero] at *
  omega

/-! ## Claim C2 -/

/-- C2: in per-prefix (ECMP-deduplicated) summary mode, every route
entry with at least one nexthop increments the route total exactly once
(for the first nexthop only) and the fib subtotal once per fib-flagged
nexthop seen in that first-nexthop pass (i.e. exactly when the first
nexthop is fib-flagged); entries with an empty nexthop list contribute
nothing; and the printed eBGP bucket is the BGP bucket minus the iBGP
bucket (a subtraction that never truncates, as the iBGP cell never
exceeds the BGP bucket). -/
theorem spec_C2 :
    (∀ t : RouteTable,
        (prefixSummary t).ribTotal = ((tableEntries t).map perPrefixRibContrib).sum
      ∧ (prefixSummary t).fibTotal = ((tableEntries t).map perPrefixFibContrib).sum)
  ∧ (∀ t : RouteTable,
        printedEbgpRibPrefix t
          = (prefixSummary t).ribProto ZEBRA_ROUTE_BGP - (prefixSummary t).ribIbgp
      ∧ (prefixSummary t).ribIbgp ≤ (prefixSummary t).ribProto ZEBRA_ROUTE_BGP
      ∧ printedEbgpFibPrefix t
          = (prefixSummary t).fibProto ZEBRA_ROUTE_BGP - (prefixSummary t).fibIbgp
      ∧ (prefixSummary t).fibIbgp ≤ (prefixSummary t).fibProto ZEBRA_ROUTE_BGP) := by
  constructor
  · intro t
    exact ⟨prefixSummary_ribTotal t, prefixSummary_fibTotal t⟩
  · intro t
    exact ⟨rfl, prefixSummary_ribIbgp_le t, rfl, prefixSummary_fibIbgp_le t⟩

/-! ## Claim C1 -/

/-- The table refuting C1 as stated: two static entries under one node,
the first with a single fib-flagged nexthop but without the
selected-best flag, the second with no nexthops.  No entry has two or
more nexthops. -/
def tblC1 : RouteTable :=
  [⟨⟨.inet, 167772160, 8⟩,
    [⟨3, 0, 0, false, false, false, [⟨true, true⟩]⟩,
     ⟨3, 0, 0, false, false, false, []⟩]⟩]

/-- C1 fails on the code: in `tblC1` no entry has two or more nexthops,
yet neither the route-count totals nor the FIB-count totals of the two
summaries agree (the per-route summary counts entries and selected-best
flags; the per-prefix summary counts first nexthops and their fib
flags). -/
theorem counterexample_C1 :
    (∀ e ∈ tableEntries tblC1, e.nexthops.length < 2)
  ∧ (routeSummary tblC1).ribTotal ≠ (prefixSummary tblC1).ribTotal
  ∧ (routeSummary tblC1).fibTotal ≠ (prefixSummary tblC1).fibTotal := by
  refine ⟨?_, ?_, ?_⟩ <;> decide

/-- C1 (amended): the per-route route-count total is always at least the
per-prefix route-count total, and the two route-count totals are equal
whenever every entry has at least one nexthop (regardless of how many
nexthops any entry has); no inequality relates the FIB-count totals,
which the two summaries compute from different flags. -/
theorem spec_C1_amended (t : RouteTable) :
    (prefixSummary t).ribTotal ≤ (routeSummary t).ribTotal
  ∧ ((∀ e ∈ tableEntries t, e.nexthops ≠ []) →
      (routeSummary t).ribTotal = (prefixSummary t).ribTotal) := by
  constructor
  · rw [prefixSummary_ribTotal, routeSummary_ribTotal]
    exact sum_perPrefixRibContrib_le (tableEntries t)
  · intro h
    rw [prefixSummary_ribTotal, routeSummary_ribTotal,
      sum_perPrefixRibContrib_eq (tableEntries t) h]

/-- The table witnessing the amended C1: one static entry with one
nexthop. -/
def tblC1w : RouteTable :=
  [⟨⟨.inet, 167772160, 8⟩, [⟨3, 0, 0, true, false, true, [⟨true, true⟩]⟩]⟩]

/-- Witness for the amended C1 at a concrete table. -/
theorem spec_C1_amended_witness :
    (prefixSummary tblC1w).ribTotal ≤ (routeSummary tblC1w).ribTotal
  ∧ (routeSummary tblC1w).ribTotal = (prefixSummary tblC1w).ribTotal :=
  ⟨(spec_C1_amended tblC1w).1, (spec_C1_amended tblC1w).2 (by decide)⟩

/-! ## Claim C3 -/

theorem errOf_classify (afi : Afi) (g : Option (Option Nat))
    (i f : Option (List Char)) :
    errOf (classifyNexthop afi g i f) = classifyFirstFailure g i f := by
  rcases i with _ | n <;> rcases f with _ | fl
  · rcases g with _ | (_ | ga) <;>
      simp [classifyNexthop, classifyFirstFailure, errOf]
  · rcases hk : flagKind fl with _ | b
    · simp [classifyNexthop, classifyFirstFailure, errOf, hk]
    · cases b <;> rcases g with _ | (_ | ga) <;>
        simp [classifyNexthop, classifyFirstFailure, errOf, hk]
  · by_cases hn : null0Prefix n = true <;>
      rcases g with _ | (_ | ga) <;>
      simp [classifyNexthop, classifyFirstFailure, errOf, hn]
  · by_cases hn : null0Prefix n = true
    · simp [classifyNexthop, classifyFirstFailure, errOf, hn]
    · rcases hk : flagKind fl with _ | b
      · simp [classifyNexthop, classifyFirstFailure, errOf, hn, hk]
      · cases b <;> rcases g with _ | (_ | ga) <;>
          simp [classifyNexthop, classifyFirstFailure, errOf, hn, hk]

theorem errOf_classifyStage (afi : Afi) (g : Option (Option Nat))
    (i f : Option (List Char)) (zv : Zvrf)
    (build : ClassOut → IfIdx → StaticReq) :
    errOf (classifyStage afi g i f zv build) = classifyFirstFailure g i f := by
  rw [← errOf_classify afi g i f]
  unfold classifyStage
  cases classifyNexthop afi g i f <;> rfl

theorem errOf_error {α : Type} (e : RouteErr) :
    errOf (α := α) (.error e) = some e := rfl

theorem errOf_ok {α : Type} (r : α) : errOf (.ok r) = none := rfl

/-- The reported failure of the embedded `zebra_static_route` is exactly
the first failing check, in the specification's order. -/
theorem errOf_zebraStaticRoute (a : Args) :
    errOf (zebraStaticRoute a) = specFirstFailure a := by
  obtain ⟨afi, neg, dest, mask, src, gate, ifn, flg, tg, dst, vrf, lbl, mpls⟩ := a
  rcases dest with _ | p0
  · simp [zebraStaticRoute, specFirstFailure, errOf_error]
  rcases vrf with _ | zv <;>
    rcases afi with _ | _ <;>
    [rcases mask with _ | (_ | len);
     rcases src with _ | (_ | s);
     rcases mask with _ | (_ | len);
     rcases src with _ | (_ | s)] <;>
    rcases lbl with _ | lp <;>
    (try cases lp) <;>
    cases mpls <;>
    (try by_cases hs : s.family = Family.inet6) <;>
    simp_all [zebraStaticRoute, specFirstFailure, srcBad, errOf_error, errOf_ok,
      errOf_classifyStage]

/-- C3: validation checks of the static-route normalizer run in the
specification's fixed order — malformed destination, malformed mask,
malformed IPv6 source, undefined VRF, MPLS disabled, label errors, flag
errors, malformed nexthop address — the first failing check alone
determines the reported config-failure, and a failing run issues no
add or withdraw request to the RIB. -/
theorem spec_C3 (a : Args) :
    errOf (zebraStaticRoute a) = specFirstFailure a
  ∧ (∀ e : RouteErr, zebraStaticRoute a = .error e →
      reqOf (zebraStaticRoute a) = none) := by
  refine ⟨errOf_zebraStaticRoute a, ?_⟩
  intro e he
  rw [he]
  rfl

/-- A run whose destination text does not parse. -/
def argsC3 : Args :=
  ⟨.ip, false, none, none, none, none, none, none, none, none,
   some ⟨0, []⟩, none, false⟩

/-- Witness for C3: on a malformed destination the reported failure is
`MalformedAddress` and no RIB request is issued. -/
theorem spec_C3_witness :
    errOf (zebraStaticRoute argsC3) = specFirstFailure argsC3
  ∧ reqOf (zebraStaticRoute argsC3) = none :=
  ⟨(spec_C3 argsC3).1, (spec_C3 argsC3).2 .malformedAddress (by rfl)⟩

/-- The classification tail of `specFirstFailure`: when every earlier
check passes, the remaining failure is exactly the classification
stage's. -/
theorem specFirstFailure_tail (a : Args) (h : specFirstFailure a = none) :
    classifyFirstFailure a.gateParse a.ifname a.flagStr = none := by
  unfold specFirstFailure at h
  split_ifs at h
  exact h

theorem classifyStage_ok (afi : Afi) (g : Option (Option Nat))
    (i f : Option (List Char)) (zv : Zvrf)
    (build : ClassOut → IfIdx → StaticReq)
    (h : classifyFirstFailure g i f = none) :
    classifyStage afi g i f zv build
      = .ok (build (classOutOf afi g i f) (ifidxOf zv (classOutOf afi g i f))) := by
  have he := errOf_classify afi g i f
  rw [h] at he
  cases hc : classifyNexthop afi g i f with
  | error e => rw [hc] at he; exact absurd he (by simp [errOf])
  | ok c => simp [classifyStage, classOutOf, hc]

/-- On a run with no failing check, the normalizer issues exactly the
request `buildReq` computes from the inputs. -/
theorem zebraStaticRoute_ok (a : Args) (hok : specFirstFailure a = none) :
    zebraStaticRoute a = .ok (buildReq a) := by
  have htail := specFirstFailure_tail a hok
  obtain ⟨afi, neg, dest, mask, src, gate, ifn, flg, tg, dst, vrf, lbl, mpls⟩ := a
  rcases dest with _ | p0
  · simp [specFirstFailure] at hok
  rcases vrf with _ | zv <;>
    rcases afi with _ | _ <;>
    [rcases mask with _ | (_ | len);
     rcases src with _ | (_ | s);
     rcases mask with _ | (_ | len);
     rcases src with _ | (_ | s)] <;>
    rcases lbl with _ | lp <;>
    (try cases lp) <;>
    cases mpls <;>
    (try by_cases hs : s.family = Family.inet6) <;>
    simp_all [zebraStaticRoute, specFirstFailure, srcBad, buildReq,
      classifyStage_ok]

/-- With a non-Null0 interface name, a successful classification keeps
that name. -/
theorem classifyNexthop_ifname (afi : Afi) (g : Option (Option Nat))
    (f : Option (List Char)) (n : List Char) (hn0 : null0Prefix n = false)
    (c : ClassOut) (hc : classifyNexthop afi g (some n) f = .ok c) :
    c.ifname = some n := by
  rcases f with _ | fl
  · rcases g with _ | (_ | ga) <;> simp_all [classifyNexthop, hn0] <;>
      simp [← hc]
  · rcases hk : flagKind fl with _ | b
    · rcases g with _ | (_ | ga) <;> simp_all [classifyNexthop, hn0]
    · cases b <;> rcases g with _ | (_ | ga) <;>
        simp_all [classifyNexthop, hn0] <;> simp [← hc]

/-! ## Claim C9 -/

/-- C9: when every validation check passes and the (non-Null0)
interface name does not resolve in the VRF's interface table, the add
is still accepted — the command issues the request, with the interface
index set to the `IFINDEX_DELETED` deferred-resolution sentinel. -/
theorem spec_C9 (a : Args) (zv : Zvrf) (n : List Char)
    (hneg : a.negate = false) (hvrf : a.vrf = some zv)
    (hif : a.ifname = some n) (hn0 : null0Prefix n = false)
    (hlk : ifLookup zv n = none) (hok : specFirstFailure a = none) :
    zebraStaticRoute a = .ok (buildReq a)
  ∧ (buildReq a).negate = false
  ∧ (buildReq a).ifindex = .deleted := by
  have htail := specFirstFailure_tail a hok
  have he := errOf_classify a.afi a.gateParse a.ifname a.flagStr
  rw [htail] at he
  refine ⟨zebraStaticRoute_ok a hok, by simp [buildReq, hneg], ?_⟩
  cases hc : classifyNexthop a.afi a.gateParse a.ifname a.flagStr with
  | error e => rw [hc] at he; exact absurd he (by simp [errOf])
  | ok c =>
    have hcn : c.ifname = some n := by
      rw [hif] at hc
      exact classifyNexthop_ifname a.afi a.gateParse a.flagStr n hn0 c hc
    simp [buildReq, classOutOf, hc, ifidxOf, hcn, hvrf, hlk]

/-- An otherwise-valid add whose interface name resolves to nothing in
the (empty) interface table of its VRF. -/
def argsC9 : Args :=
  ⟨.ip, false, some ⟨.inet, 167772160, 8⟩, none, none, none,
   some ['e', 't', 'h', '0'], none, none, none, some ⟨0, []⟩, none, false⟩

/-- Witness for C9 at a concrete unresolved interface name. -/
theorem spec_C9_witness :
    zebraStaticRoute argsC9 = .ok (buildReq argsC9)
  ∧ (buildReq argsC9).negate = false
  ∧ (buildReq argsC9).ifindex = .deleted :=
  spec_C9 argsC9 ⟨0, []⟩ ['e', 't', 'h', '0'] rfl rfl rfl (by decide) rfl
    (by rfl)

/-! ## Claim C10 -/

/-- C10: any non-empty case-insensitive prefix of "Null0" as the
interface name behaves exactly as the full name "Null0" would — the
whole normalizer run is unchanged by replacing one with the other,
because `strncasecmp` is limited to the supplied name's length. -/
theorem spec_C10 (a : Args) (n : List Char) (hif : a.ifname = some n)
    (hne : n ≠ []) (hn0 : null0Prefix n = true) :
    zebraStaticRoute a
      = zebraStaticRoute { a with ifname := some ['N', 'u', 'l', 'l', '0'] } := by
  have hnull : null0Prefix ['N', 'u', 'l', 'l', '0'] = true := by decide
  obtain ⟨afi, neg, dest, mask, src, gate, ifn, flg, tg, dst, vrf, lbl, mpls⟩ := a
  simp only at hif
  subst hif
  have hcs : ∀ (zv : Zvrf) (build : ClassOut → IfIdx → StaticReq),
      classifyStage afi gate (some n) flg zv build
        = classifyStage afi gate (some ['N', 'u', 'l', 'l', '0']) flg zv build := by
    intro zv build
    unfold classifyStage
    have hcn : classifyNexthop afi gate (some n) flg
        = classifyNexthop afi gate (some ['N', 'u', 'l', 'l', '0']) flg := by
      simp [classifyNexthop, hn0, hnull]
    rw [hcn]
  simp only [zebraStaticRoute, hcs]

/-- A run whose interface-name argument is "nu", a strict prefix of
"Null0". -/
def argsC10 : Args :=
  ⟨.ip, false, some ⟨.inet, 167772160, 8⟩, none, none, none,
   some ['n', 'u'], none, none, none, some ⟨0, []⟩, none, false⟩

/-- Witness for C10: the name "nu" is processed exactly as "Null0". -/
theorem spec_C10_witness :
    zebraStaticRoute argsC10
      = zebraStaticRoute { argsC10 with ifname := some ['N', 'u', 'l', 'l', '0'] } :=
  spec_C10 argsC10 ['n', 'u'] rfl (by decide) (by decide)

/-! ## Claim C4 -/

/-- C4 fails as stated: with no gateway, no flag token and the interface
name "nu" — not case-insensitively "Null0" — the claim's rules classify
the nexthop as InterfaceOnly, but the code (whose Null0 comparison is
limited to the supplied name's length) classifies it as Blackhole. -/
theorem counterexample_C4 :
    Except.map toNexthopSpec (classifyNexthop .ip none (some ['n', 'u']) none)
      ≠ claimC4Classify .ip false (some ['n', 'u']) none := by decide

/-- C4 (amended): classification is total and deterministic, and equals
the first-match-wins rule table in which rule 1 fires on any
case-insensitive prefix of "Null0" (rejecting a simultaneous flag
token, setting the blackhole flag and clearing only the interface name,
so that a present gateway still selects the AFI-specific gateway-only
variant), rule 2 turns a flag token into the Reject/Blackhole flag
(other leading characters failing), a present-but-unparsable gateway
fails, and the final variant follows gateway presence and the surviving
interface name. -/
theorem spec_C4_amended :
    (∀ (afi : Afi) (g : Option (Option Nat)) (i f : Option (List Char)),
        classifyNexthop afi g i f = amendedClassify afi g i f)
  ∧ (∀ (afi : Afi) (g : Option (Option Nat)) (n fl : List Char),
        null0Prefix n = true →
        classifyNexthop afi g (some n) (some fl) = .error .flagWithNull0) := by
  constructor
  · intro afi g i f
    rcases i with _ | n
    · rcases f with _ | fl
      · cases afi <;> rcases g with _ | (_ | ga) <;>
          simp [classifyNexthop, amendedClassify, gwOnly]
      · rcases hk : flagKind fl with _ | b
        · cases afi <;> rcases g with _ | (_ | ga) <;>
            simp [classifyNexthop, amendedClassify, hk]
        · cases b <;> cases afi <;> rcases g with _ | (_ | ga) <;>
            simp [classifyNexthop, amendedClassify, hk, gwOnly, gwIfindex]
    · by_cases hn : null0Prefix n = true
      · rcases f with _ | fl
        · cases afi <;> rcases g with _ | (_ | ga) <;>
            simp [classifyNexthop, amendedClassify, hn, gwOnly]
        · cases afi <;> rcases g with _ | (_ | ga) <;>
            simp [classifyNexthop, amendedClassify, hn]
      · rcases f with _ | fl
        · cases afi <;> rcases g with _ | (_ | ga) <;>
            simp [classifyNexthop, amendedClassify, hn, gwOnly, gwIfindex]
        · rcases hk : flagKind fl with _ | b
          · cases afi <;> rcases g with _ | (_ | ga) <;>
              simp [classifyNexthop, amendedClassify, hn, hk]
          · cases b <;> cases afi <;> rcases g with _ | (_ | ga) <;>
              simp [classifyNexthop, amendedClassify, hn, hk, gwOnly, gwIfindex]
  · intro afi g n fl hn
    simp [classifyNexthop, hn]

/-- Witness for the amended C4: the Null0-prefix/flag conflict is
rejected at a concrete input, and a concrete interface-only input
matches the rule table. -/
theorem spec_C4_amended_witness :
    classifyNexthop .ip none (some ['n', 'u']) (some ['b']) = .error .flagWithNull0
  ∧ classifyNexthop .ip6 (some (some 42)) (some ['e', 't', 'h']) none
      = amendedClassify .ip6 (some (some 42)) (some ['e', 't', 'h']) none :=
  ⟨spec_C4_amended.2 .ip none ['n', 'u'] ['b'] (by decide),
   spec_C4_amended.1 .ip6 (some (some 42)) (some ['e', 't', 'h']) none⟩

/-! ## Claim C5 -/

set_option maxHeartbeats 1000000 in
theorem entryShown_iff (q : ShowQuery) (p : Pfx) (re : RouteEntry) :
    entryShown q p re = true
      ↔ critFib q re = true ∧ critTag q re = true ∧ critLonger q p = true
        ∧ critSupernets q p = true ∧ critType q re = true
        ∧ critInstance q re = true := by
  rcases q with ⟨uf, tg, lp, so, ty, oi⟩
  cases uf <;> cases so <;> rcases lp with _ | lpp <;>
    simp only [entryShown, critFib, critTag, critLonger, critSupernets,
      critType, critInstance] <;>
    split_ifs <;>
    simp_all <;>
    tauto

theorem passesAll_iff (q : ShowQuery) (p : Pfx) (re : RouteEntry) :
    passesAll q p re = true
      ↔ critFib q re = true ∧ critTag q re = true ∧ critLonger q p = true
        ∧ critSupernets q p = true ∧ critType q re = true
        ∧ critInstance q re = true := by
  simp [passesAll, and_assoc]

theorem entryShown_iff_passesAll (q : ShowQuery) (p : Pfx) (re : RouteEntry) :
    entryShown q p re = true ↔ passesAll q p re = true := by
  rw [entryShown_iff, passesAll_iff]

theorem mem_showRoutes (q : ShowQuery) (t : RouteTable) (pr : Pfx × RouteEntry) :
    pr ∈ showRoutes q t
      ↔ (∃ rn ∈ t, rn.p = pr.1 ∧ pr.2 ∈ rn.entries)
        ∧ passesAll q pr.1 pr.2 = true := by
  rcases pr with ⟨p, re⟩
  simp only [showRoutes, List.mem_flatMap, List.mem_map, List.mem_filter,
    entryShown_iff_passesAll, Prod.mk.injEq]
  constructor
  · rintro ⟨rn, hrn, re', ⟨hre', hpass⟩, hp, hre⟩
    subst hp
    subst hre
    exact ⟨⟨rn, hrn, rfl, hre'⟩, hpass⟩
  · rintro ⟨⟨rn, hrn, hp, hre⟩, hpass⟩
    subst hp
    exact ⟨rn, hrn, re, ⟨hre, hpass⟩, rfl, rfl⟩

theorem passesAll_staticFib (p : Pfx) (re : RouteEntry)
    (h : passesAll staticFibQuery p re = true) :
    passesAll staticQuery p re = true ∧ re.selectedFib = true := by
  simp only [passesAll, critFib, critTag, critLonger, critSupernets, critType,
    critInstance, staticQuery, staticFibQuery] at *
  simp_all

/-- C5: a route entry appears in the show-route output iff it is in the
table and every supplied filter criterion holds of it (fib-only,
tag, covering reference prefix, supernets-only, protocol type, OSPF
instance); consequently the `type=static, fib-only` result is a subset
of the `type=static` result and all of its members are fib-installed. -/
theorem spec_C5 :
    (∀ (q : ShowQuery) (t : RouteTable) (pr : Pfx × RouteEntry),
        pr ∈ showRoutes q t
          ↔ (∃ rn ∈ t, rn.p = pr.1 ∧ pr.2 ∈ rn.entries)
            ∧ passesAll q pr.1 pr.2 = true)
  ∧ (∀ (t : RouteTable) (pr : Pfx × RouteEntry),
        pr ∈ showRoutes staticFibQuery t → pr ∈ showRoutes staticQuery t)
  ∧ (∀ (t : RouteTable) (pr : Pfx × RouteEntry),
        pr ∈ showRoutes staticFibQuery t → pr.2.selectedFib = true) := by
  refine ⟨mem_showRoutes, ?_, ?_⟩
  · intro t pr h
    rw [mem_showRoutes] at h ⊢
    exact ⟨h.1, (passesAll_staticFib pr.1 pr.2 h.2).1⟩
  · intro t pr h
    rw [mem_showRoutes] at h
    exact (passesAll_staticFib pr.1 pr.2 h.2).2

/-- A one-entry static table whose entry is fib-installed. -/
def tblC5 : RouteTable :=
  [⟨⟨.inet, 167772160, 8⟩, [⟨3, 0, 0, true, false, true, [⟨true, true⟩]⟩]⟩]

/-- Witness for C5 at a concrete table: the fib-filtered member is in
the unfiltered static result and is fib-installed. -/
theorem spec_C5_witness :
    ((⟨⟨.inet, 167772160, 8⟩, ⟨3, 0, 0, true, false, true, [⟨true, true⟩]⟩⟩ :
        Pfx × RouteEntry) ∈ showRoutes staticQuery tblC5)
  ∧ (⟨3, 0, 0, true, false, true, [⟨true, true⟩]⟩ : RouteEntry).selectedFib = true :=
  ⟨spec_C5.2.1 tblC5 _ (by decide), spec_C5.2.2 tblC5
    ⟨⟨.inet, 167772160, 8⟩, ⟨3, 0, 0, true, false, true, [⟨true, true⟩]⟩⟩ (by decide)⟩

/-! ## Claim C8 -/

/-- C8: under the supernets-only filter an IPv4 entry is kept iff its
prefix length is strictly below the classful boundary of its address's
class — 8 for class A, 16 for class B, 24 for class C. -/
theorem spec_C8 (p : Pfx) (hfam : p.family = .inet) :
    (inClassA p.addr = true → (supernetsSkip p = false ↔ p.len < 8))
  ∧ (inClassB p.addr = true → (supernetsSkip p = false ↔ p.len < 16))
  ∧ (inClassC p.addr = true → (supernetsSkip p = false ↔ p.len < 24)) := by
  obtain ⟨fam, a, len⟩ := p
  refine ⟨?_, ?_, ?_⟩ <;> intro hcl <;>
    simp only [supernetsSkip, inClassA, inClassB, inClassC,
      Nat.shiftRight_eq_div_pow] at * <;>
    norm_num at * <;>
    omega

/-- Witness for C8: the class-A prefix 10.0.0.0/7 is kept and
10.0.0.0/8 is skipped by the supernets-only filter. -/
theorem spec_C8_witness :
    supernetsSkip ⟨.inet, 167772160, 7⟩ = false
  ∧ supernetsSkip ⟨.inet, 167772160, 8⟩ ≠ false :=
  ⟨((spec_C8 ⟨.inet, 167772160, 7⟩ rfl).1 (by decide)).mpr (by decide),
   fun h =>
    (by decide : ¬ (8 < 8))
      (((spec_C8 ⟨.inet, 167772160, 8⟩ rfl).1 (by decide)).mp h)⟩

/-! ## Claim C6 -/

theorem daysInYear_1970 : daysInYear 1970 = 365 := by decide

theorem ydayFrom_small (d : Nat) (h : d < 365) : ydayFrom 1970 d = d := by
  rw [ydayFrom, daysInYear_1970]
  simp [h]

/-- C6: a displayed age below one day renders in the HH:MM:SS format
with the hour, minute and second of the uptime; at least one day but
below one week renders in the DdHHhMMm format with the day count,
hour-of-day and minute; at least one week renders in the WWwDdHHh
format; and an age of exactly 90000 seconds prints as "1d01h00m". -/
theorem spec_C6 :
    (∀ u : Nat, u < ONE_DAY_SECOND →
        renderAge u = .clock (u / 3600) (u / 60 % 60) (u % 60))
  ∧ (∀ u : Nat, ONE_DAY_SECOND ≤ u → u < ONE_WEEK_SECOND →
        renderAge u = .dhm (u / 86400) (u / 3600 % 24) (u / 60 % 60))
  ∧ (∀ u : Nat, ONE_WEEK_SECOND ≤ u →
        ∃ w d h, renderAge u = .wdh w d h)
  ∧ ageString (renderAge 90000) = "1d01h00m" := by
  have hone : ONE_DAY_SECOND = 86400 := by norm_num [ONE_DAY_SECOND]
  have hweek : ONE_WEEK_SECOND = 604800 := by norm_num [ONE_WEEK_SECOND]
  refine ⟨?_, ?_, ?_, ?_⟩
  · intro u h
    have h24 : u / 3600 < 24 := by omega
    simp [renderAge, gmtimeOf, h, Nat.mod_eq_of_lt h24]
  · intro u h1 h2
    have hn1 : ¬ u < ONE_DAY_SECOND := by omega
    have hy : u / 86400 < 365 := by omega
    simp [renderAge, gmtimeOf, hn1, h2, ydayFrom_small _ hy]
  · intro u h
    have hn1 : ¬ u < ONE_DAY_SECOND := by omega
    have hn2 : ¬ u < ONE_WEEK_SECOND := by omega
    exact ⟨(gmtimeOf u).yday / 7, (gmtimeOf u).yday - (gmtimeOf u).yday / 7 * 7,
      (gmtimeOf u).hour, by simp [renderAge, hn1, hn2]⟩
  · have h90 : renderAge 90000 = .dhm 1 1 0 := by
      have hy : ydayFrom 1970 1 = 1 := ydayFrom_small 1 (by norm_num)
      simp [renderAge, gmtimeOf, ONE_DAY_SECOND, ONE_WEEK_SECOND, hy]
    rw [h90]
    decide

/-- Witness for C6 at concrete ages in each bucket. -/
theorem spec_C6_witness :
    renderAge 50000 = .clock 13 53 20
  ∧ renderAge 90000 = .dhm 1 1 0
  ∧ (∃ w d h, renderAge 700000 = .wdh w d h) := by
  refine ⟨?_, ?_, spec_C6.2.2.1 700000 (by norm_num [ONE_WEEK_SECOND])⟩
  · have h := spec_C6.1 50000 (by norm_num [ONE_DAY_SECOND])
    norm_num at h
    exact h
  · have h := spec_C6.2.1 90000 (by norm_num [ONE_DAY_SECOND])
      (by norm_num [ONE_WEEK_SECOND])
    norm_num at h
    exact h

/-! ## Claim C7 -/

theorem prefixCovers_len_le (p q : Pfx) (h : prefixCovers p q = true) :
    p.len ≤ q.len := by
  unfold prefixCovers at h
  simp only [Bool.and_eq_true, beq_iff_eq, decide_eq_true_eq] at h
  exact h.1.2

theorem bestMatch_mem (q : Pfx) (t : RouteTable) :
    ∀ rn : RNode, bestMatch q t = some rn →
      rn ∈ t ∧ prefixCovers rn.p q = true := by
  induction t with
  | nil => intro rn h; simp [bestMatch] at h
  | cons x rest ih =>
    intro rn h
    simp only [bestMatch] at h
    cases hb : bestMatch q rest with
    | none =>
      rw [hb] at h
      simp only [] at h
      split_ifs at h with hc
      · obtain rfl := Option.some.inj h
        exact ⟨List.mem_cons_self x rest, hc⟩
    | some m =>
      rw [hb] at h
      simp only [] at h
      split_ifs at h with hc
      · obtain rfl := Option.some.inj h
        exact ⟨List.mem_cons_self x rest, hc.1⟩
      · obtain rfl := Option.some.inj h
        obtain ⟨hm, hcm⟩ := ih m hb
        exact ⟨List.mem_cons_of_mem x hm, hcm⟩

theorem bestMatch_none (q : Pfx) (t : RouteTable) :
    bestMatch q t = none ↔ ∀ m ∈ t, prefixCovers m.p q = false := by
  induction t with
  | nil => simp [bestMatch]
  | cons x rest ih =>
    simp only [bestMatch]
    cases hb : bestMatch q rest with
    | none =>
      have hrest := ih.mp hb
      simp only []
      split_ifs with hc
      · constructor
        · intro h; exact absurd h (by simp)
        · intro hall; exact absurd (hall x (List.mem_cons_self x rest)) (by simp [hc])
      · constructor
        · intro _
          intro m hm
          rcases List.mem_cons.mp hm with rfl | hm'
          · exact Bool.not_eq_true _ ▸ (by simpa using hc)
          · exact hrest m hm'
        · intro _; rfl
    | some m =>
      obtain ⟨hm, hcm⟩ := bestMatch_mem q rest m hb
      simp only []
      constructor
      · intro h
        split_ifs at h <;> exact absurd h (by simp)
      · intro hall
        exact absurd (hall m (List.mem_cons_of_mem x hm)) (by simp [hcm])

theorem bestMatch_maximal (q : Pfx) (t : RouteTable) :
    ∀ rn : RNode, bestMatch q t = some rn →
      ∀ m ∈ t, prefixCovers m.p q = true → m.p.len ≤ rn.p.len := by
  induction t with
  | nil => intro rn h; simp [bestMatch] at h
  | cons x rest ih =>
    intro rn h m hm hcov
    simp only [bestMatch] at h
    rcases List.mem_cons.mp hm with rfl | hm'
    · cases hb : bestMatch q rest with
      | none =>
        rw [hb] at h
        simp only [] at h
        split_ifs at h with hc
        · obtain rfl := Option.some.inj h
          exact Nat.le_refl _
      | some mr =>
        rw [hb] at h
        simp only [] at h
        split_ifs at h with hc
        · obtain rfl := Option.some.inj h
          exact Nat.le_refl _
        · obtain rfl := Option.some.inj h
          rcases not_and_or.mp hc with hc1 | hc2
          · exact absurd hcov hc1
          · exact Nat.le_of_not_lt hc2
    · cases hb : bestMatch q rest with
      | none =>
        have := (bestMatch_none q rest).mp hb m hm'
        simp [this] at hcov
      | some mr =>
        rw [hb] at h
        simp only [] at h
        have hle : m.p.len ≤ mr.p.len := ih mr hb m hm' hcov
        split_ifs at h with hc
        · obtain rfl := Option.some.inj h
          exact Nat.le_trans hle (Nat.le_of_lt hc.2)
        · obtain rfl := Option.some.inj h
          exact hle

theorem covers_eq_of_len_eq (p1 p2 q : Pfx)
    (h1 : prefixCovers p1 q = true) (h2 : prefixCovers p2 q = true)
    (hlen : p1.len = p2.len)
    (hm1 : applyMask p1 = p1) (hm2 : applyMask p2 = p2) :
    p1 = p2 := by
  unfold prefixCovers at h1 h2
  simp only [Bool.and_eq_true, beq_iff_eq, decide_eq_true_eq] at h1 h2
  obtain ⟨⟨hf1, hl1⟩, ha1⟩ := h1
  obtain ⟨⟨hf2, hl2⟩, ha2⟩ := h2
  have hadr1 : maskAddr p1.family.width p1.len p1.addr = p1.addr :=
    congrArg Pfx.addr hm1
  have hadr2 : maskAddr p2.family.width p2.len p2.addr = p2.addr :=
    congrArg Pfx.addr hm2
  obtain ⟨f1, a1, l1⟩ := p1
  obtain ⟨f2, a2, l2⟩ := p2
  simp only at hf1 hf2 hl1 hl2 ha1 ha2 hadr1 hadr2 hlen
  subst hf1
  subst hlen
  simp_all

theorem bestMatch_eq_of_maximal (q : Pfx) (t : RouteTable)
    (hmask : ∀ rn ∈ t, applyMask rn.p = rn.p)
    (hdist : t.Pairwise (fun a b => a.p ≠ b.p)) :
    ∀ rn ∈ t, prefixCovers rn.p q = true →
      (∀ m ∈ t, prefixCovers m.p q = true → m.p.len ≤ rn.p.len) →
      bestMatch q t = some rn := by
  induction t with
  | nil => intro rn h; simp at h
  | cons x rest ih =>
    intro rn hrn hcov hmax
    simp only [bestMatch]
    rcases List.mem_cons.mp hrn with rfl | hrn'
    · cases hb : bestMatch q rest with
      | none => simp [hcov]
      | some m =>
        obtain ⟨hm, hcm⟩ := bestMatch_mem q rest m hb
        have hle : m.p.len ≤ rn.p.len := hmax m (List.mem_cons_of_mem rn hm) hcm
        rcases Nat.lt_or_ge m.p.len rn.p.len with hlt | hge
        · simp [hcov, hlt]
        · have hlen : rn.p.len = m.p.len := Nat.le_antisymm hge hle
          have hpeq : rn.p = m.p :=
            covers_eq_of_len_eq rn.p m.p q hcov hcm hlen
              (hmask rn (List.mem_cons_self rn rest))
              (hmask m (List.mem_cons_of_mem rn hm))
          have hne : rn.p ≠ m.p :=
            (List.pairwise_cons.mp hdist).1 m hm
          exact absurd hpeq hne
    · have hbm : bestMatch q rest = some rn :=
        ih (fun m hm => hmask m (List.mem_cons_of_mem x hm))
          (List.pairwise_cons.mp hdist).2 rn hrn' hcov
          (fun m hm hc => hmax m (List.mem_cons_of_mem x hm) hc)
      rw [hbm]
      simp only []
      have hxle : prefixCovers x.p q = true → x.p.len ≤ rn.p.len :=
        fun hcx => hmax x (List.mem_cons_self x rest)  hcx
      split_ifs with hc
      · exact absurd (hxle hc.1) (Nat.not_le_of_lt hc.2)
      · rfl

/-- C7 (amended): on a well-formed table, the address query renders the
detail record of the longest-prefix match for the address and warns
exactly when no node covers it; the prefix query renders the detail
record of the best/longest matching node only when that node's prefix
length equals the query's (an exact match), and reports the network as
not in the table otherwise — even when a shorter covering node
exists. -/
theorem spec_C7_amended (t : RouteTable) (hwf : wfTable t) :
    (∀ (q : Pfx) (rn : RNode),
        showIpRoutePrefix t q = .detail rn
          ↔ rn ∈ t ∧ rn.p.len = q.len ∧ prefixCovers rn.p q = true)
  ∧ (∀ (a : Nat) (rn : RNode),
        showIpRouteAddr t a = .detail rn
          ↔ rn ∈ t ∧ prefixCovers rn.p (hostPfx a) = true
            ∧ ∀ m ∈ t, prefixCovers m.p (hostPfx a) = true → m.p.len ≤ rn.p.len)
  ∧ (∀ q : Pfx,
        showIpRoutePrefix t q = .warningNotFound
          ↔ ¬ ∃ rn ∈ t, rn.p.len = q.len ∧ prefixCovers rn.p q = true)
  ∧ (∀ a : Nat,
        showIpRouteAddr t a = .warningNotFound
          ↔ ∀ m ∈ t, prefixCovers m.p (hostPfx a) = false) := by
  obtain ⟨hmask, hdist⟩ := hwf
  have hdet : ∀ (qa : Pfx) (rn : RNode),
      bestMatch qa t = some rn
        ↔ rn ∈ t ∧ prefixCovers rn.p qa = true
          ∧ ∀ m ∈ t, prefixCovers m.p qa = true → m.p.len ≤ rn.p.len := by
    intro qa rn
    constructor
    · intro h
      exact ⟨(bestMatch_mem qa t rn h).1, (bestMatch_mem qa t rn h).2,
        bestMatch_maximal qa t rn h⟩
    · rintro ⟨h1, h2, h3⟩
      exact bestMatch_eq_of_maximal qa t hmask hdist rn h1 h2 h3
  have hP : ∀ (q : Pfx) (rn : RNode),
      showIpRoutePrefix t q = .detail rn
        ↔ rn ∈ t ∧ rn.p.len = q.len ∧ prefixCovers rn.p q = true := by
    intro q rn
    unfold showIpRoutePrefix
    cases hb : bestMatch q t with
    | none =>
      simp only []
      constructor
      · intro h; exact absurd h (by simp)
      · rintro ⟨h1, h2, h3⟩
        have hbm := (hdet q rn).mpr ⟨h1, h3, ?_⟩
        · rw [hb] at hbm; exact absurd hbm (by simp)
        · intro m hm hc
          exact h2 ▸ prefixCovers_len_le m.p q hc
    | some m =>
      simp only []
      obtain ⟨hm1, hm2, hm3⟩ := (hdet q m).mp hb
      split_ifs with hlen
      · simp only [ShowOutcome.detail.injEq]
        constructor
        · rintro rfl
          exact ⟨hm1, hlen, hm2⟩
        · rintro ⟨h1, h2, h3⟩
          have hbm := (hdet q rn).mpr ⟨h1, h3, ?_⟩
          · rw [hb] at hbm; exact (Option.some.inj hbm)
          · intro m' hm' hc'
            exact h2 ▸ prefixCovers_len_le m'.p q hc'
      · constructor
        · intro h; exact absurd h (by simp)
        · rintro ⟨h1, h2, h3⟩
          have hbm := (hdet q rn).mpr ⟨h1, h3, ?_⟩
          · rw [hb] at hbm
            obtain rfl := Option.some.inj hbm
            exact absurd h2 hlen
          · intro m' hm' hc'
            exact h2 ▸ prefixCovers_len_le m'.p q hc'
  have hA : ∀ (a : Nat) (rn : RNode),
      showIpRouteAddr t a = .detail rn
        ↔ rn ∈ t ∧ prefixCovers rn.p (hostPfx a) = true
          ∧ ∀ m ∈ t, prefixCovers m.p (hostPfx a) = true → m.p.len ≤ rn.p.len := by
    intro a rn
    unfold showIpRouteAddr
    cases hb : bestMatch (hostPfx a) t with
    | none =>
      simp only []
      constructor
      · intro h; exact absurd h (by simp)
      · rintro ⟨h1, h2, h3⟩
        have hbm := (hdet (hostPfx a) rn).mpr ⟨h1, h2, h3⟩
        rw [hb] at hbm; exact absurd hbm (by simp)
    | some m =>
      simp only [ShowOutcome.detail.injEq]
      constructor
      · rintro rfl
        exact (hdet (hostPfx a) m).mp hb
      · rintro ⟨h1, h2, h3⟩
        have hbm := (hdet (hostPfx a) rn).mpr ⟨h1, h2, h3⟩
        rw [hb] at hbm
        exact Option.some.inj hbm
  refine ⟨hP, hA, ?_, ?_⟩
  · intro q
    constructor
    · rintro h ⟨rn, hrn, hlen, hcov⟩
      have hd := (hP q rn).mpr ⟨hrn, hlen, hcov⟩
      rw [h] at hd
      exact absurd hd (by simp)
    · intro hno
      cases hres : showIpRoutePrefix t q with
      | warningNotFound => rfl
      | detail rn =>
        obtain ⟨h1, h2, h3⟩ := (hP q rn).mp hres
        exact absurd ⟨rn, h1, h2, h3⟩ hno
  · intro a
    unfold showIpRouteAddr
    cases hb : bestMatch (hostPfx a) t with
    | none =>
      simp only []
      constructor
      · intro _
        exact (bestMatch_none (hostPfx a) t).mp hb
      · intro _; simp
    | some m =>
      simp only []
      obtain ⟨hm1, hm2, _⟩ := (hdet (hostPfx a) m).mp hb
      constructor
      · intro h; exact absurd h (by simp)
      · intro hall
        exact absurd (hall m hm1) (by simp [hm2])


/-- The table refuting C7 as stated: a single node 10.0.0.0/8. -/
def tblC7 : RouteTable :=
  [⟨⟨.inet, 167772160, 8⟩, [⟨3, 0, 0, true, false, true, [⟨true, true⟩]⟩]⟩]

/-- C7 fails as stated: for the prefix query 10.0.0.0/24 against a
table holding 10.0.0.0/8, the best/longest matching node exists (the /8
node), yet the command reports "Network not in table" instead of
rendering its detail record, because the prefix form demands an exact
prefix-length match. -/
theorem counterexample_C7 :
    bestMatch ⟨.inet, 167772160, 24⟩ tblC7
      = some ⟨⟨.inet, 167772160, 8⟩, [⟨3, 0, 0, true, false, true, [⟨true, true⟩]⟩]⟩
  ∧ showIpRoutePrefix tblC7 ⟨.inet, 167772160, 24⟩ = .warningNotFound := by
  refine ⟨?_, ?_⟩ <;> decide

/-- Witness for the amended C7 at a concrete table: the address query
10.0.0.10 renders the /8 node's detail record, and the prefix query
10.0.0.0/24 warns. -/
theorem spec_C7_amended_witness :
    showIpRouteAddr tblC7 167772170
      = .detail ⟨⟨.inet, 167772160, 8⟩, [⟨3, 0, 0, true, false, true, [⟨true, true⟩]⟩]⟩
  ∧ showIpRoutePrefix tblC7 ⟨.inet, 167772160, 24⟩ = .warningNotFound :=
  ⟨((spec_C7_amended tblC7 ⟨by decide, by decide⟩).2.1 167772170
      ⟨⟨.inet, 167772160, 8⟩, [⟨3, 0, 0, true, false, true, [⟨true, true⟩]⟩]⟩).mpr
    (by refine ⟨by decide, by decide, ?_⟩; decide),
   ((spec_C7_amended tblC7 ⟨by decide, by decide⟩).2.2.1
      ⟨.inet, 167772160, 24⟩).mpr (by decide)⟩

end ZebraVty
